import Mathlib

/-!
Shallow embedding of the IAM authorization core: audit-conclusion
construction, snapshot cache reload, analytics fan-in pipeline, coherence
loader and the invalidation notifier, together with theorems settling the
specification claims about them.
-/

set_option maxHeartbeats 1000000

namespace Iam

/-- A ladon policy as far as the audit logger and the snapshot cache see it:
an identifier (`GetID`) and its effect. -/
structure LadonPolicy where
  id : String
  effectAllow : Bool
deriving DecidableEq

/-- Embeds `joinPoliciesNames` of `authorizer.go`: the comma-separated list
of the policy ids. -/
def joinPoliciesNames (policies : List LadonPolicy) : String :=
  String.intercalate ", " (policies.map LadonPolicy.id)

/-- Embeds the conclusion construction of
`Authorization.LogRejectedAccessRequest` of `authorizer.go`: the branch on
`len(d) > 1`, `len(d) == 1` and `len(d) == 0`, where `d[0 : len(d)-1]` is
`take (length - 1)` and `d[len(d)-1]` is the last element. -/
def logRejectedConclusion (d : List LadonPolicy) : String :=
  if h : 1 < d.length then
    "policies " ++ joinPoliciesNames (d.take (d.length - 1)) ++
      " allow access, but policy " ++
      (d.getLast (by intro hnil; rw [hnil] at h; simp at h)).id ++
      " forcefully denied it"
  else if h1 : d.length = 1 then
    "policy " ++ (d.getLast (by intro hnil; rw [hnil] at h1; simp at h1)).id ++
      " forcefully denied the access"
  else
    "no policy allowed access"

/-- The secret data cached by the snapshot cache (`pb.SecretInfo` as far as
the claims need it). -/
structure SecretInfo where
  secretId : String
  username : String
  secretKey : String
  expires : Int
deriving DecidableEq

/-- The snapshot cache of `internal/authzserver` (`Cache`): a secrets map
keyed by secret id and a policies map keyed by username, modelled as
association lists. -/
structure Cache where
  secrets : List (String × SecretInfo)
  policies : List (String × List LadonPolicy)
deriving DecidableEq

/-- Embeds `Cache.GetPolicy`: look the username up in the policies map and
return `ErrPolicyNotFound` when it is absent. -/
def Cache.GetPolicy (c : Cache) (key : String) :
    Except String (List LadonPolicy) :=
  match c.policies.lookup key with
  | some value => .ok value
  | none => .error "policy not found"

/-- Embeds `Cache.GetSecret`: look the secret id up in the secrets map and
return `ErrSecretNotFound` when it is absent. -/
def Cache.GetSecret (c : Cache) (key : String) : Except String SecretInfo :=
  match c.secrets.lookup key with
  | some value => .ok value
  | none => .error "secret not found"

/-- Embeds `Cache.Reload`: pull the secrets list; on failure return the
wrapped error with the cache untouched; on success clear the secrets map
and insert every pulled entry (a wholesale replacement), then pull the
policies list; on failure return the wrapped error, leaving the policies
map untouched (but the secrets map already replaced); on success replace
the policies map as well. The two pulls are passed in as their `Except`
outcomes. -/
def Cache.Reload (c : Cache)
    (secretsResult : Except String (List (String × SecretInfo)))
    (policiesResult : Except String (List (String × List LadonPolicy))) :
    Cache × Option String :=
  match secretsResult with
  | .error e => (c, some ("list secrets failed: " ++ e))
  | .ok secrets =>
    let c1 : Cache := { c with secrets := secrets }
    match policiesResult with
    | .error e => (c1, some ("list policies failed: " ++ e))
    | .ok policies => ({ c1 with policies := policies }, none)

/-- Embeds `retry.Do` with `retry.Attempts(3)` as used by the apiserver
store's `List` calls: run the attempt outcomes in order, return the first
success, and after the given number of attempts return the last error. -/
def retryDo (attempts : Nat) (results : Nat → Except String α) (i : Nat) :
    Except String α :=
  match attempts with
  | 0 => .error "retry: no attempts"
  | 1 => results i
  | n + 2 =>
    match results i with
    | .ok v => .ok v
    | .error _ => retryDo (n + 1) results (i + 1)

/-- Embeds the `policies.List` / `secrets.List` retry wiring into `Reload`:
each pull is retried up to three times before its outcome reaches the
cache swap. -/
def Cache.ReloadRetried (c : Cache)
    (secretsAttempts : Nat → Except String (List (String × SecretInfo)))
    (policiesAttempts : Nat → Except String (List (String × List LadonPolicy))) :
    Cache × Option String :=
  Cache.Reload c (retryDo 3 secretsAttempts 0) (retryDo 3 policiesAttempts 0)

/-- An analytics audit record (`AnalyticsRecord` of `analytics.go`). -/
structure AnalyticsRecord where
  timeStamp : Int
  username : String
  effect : String
  conclusion : String
  request : String
  policiesJson : String
  decidersJson : String
  expireAt : Int
deriving DecidableEq

/-- Encoded bytes of a record, as produced by the msgpack marshalling. -/
abbrev Encoded := List Nat

/-- Embeds `Analytics.RecordHit`: when `shouldStop` is set the record is
silently dropped and `nil` is returned; otherwise the record is sent onto
the records channel and `nil` is returned. The channel is modelled as the
list of records it will deliver. -/
def RecordHit (shouldStop : Bool) (recordsChan : List AnalyticsRecord)
    (record : AnalyticsRecord) : List AnalyticsRecord × Option String :=
  if shouldStop then (recordsChan, none)
  else (recordsChan ++ [record], none)

/-- One wakeup of the `recordWorker` select loop: either a record arrives on
the channel (with `forced` recording whether one second has elapsed since
the last flush, the `recordsBufferForcedFlushInterval` condition), or the
per-worker flush timer fires. -/
inductive WorkerEvent
  | record (r : AnalyticsRecord) (forced : Bool)
  | timer
deriving DecidableEq

/-- The records delivered on the channel during a sequence of worker
wakeups, in delivery order. -/
def workerRecords : List WorkerEvent → List AnalyticsRecord
  | [] => []
  | .record r _ :: evs => r :: workerRecords evs
  | .timer :: evs => workerRecords evs

/-- Embeds the `recordWorker` loop of `analytics.go`, parameterised by the
worker buffer size and the msgpack encoder. The state is the local
`recordsBuffer`; the result is everything the worker appends to the shared
analytics list key (`AppendToSetPipelined` flushes the buffer as one
batch, and on channel close the remaining buffer is appended). A record
that fails to encode is logged and dropped; `readyToSend` is
`len(recordsBuffer) == workerBufferSize` on a record and `true` on a timer
fire; a flush happens when the buffer is non-empty and either
`readyToSend` holds or the forced-flush interval has elapsed. -/
def recordWorker (workerBufferSize : Nat)
    (encode : AnalyticsRecord → Except String Encoded) :
    List WorkerEvent → List Encoded → List Encoded
  | [], buf => buf
  | .record r forced :: evs, buf =>
    let buf1 := match encode r with
      | .error _ => buf
      | .ok b => buf ++ [b]
    if 0 < buf1.length ∧ (buf1.length = workerBufferSize ∨ forced = true) then
      buf1 ++ recordWorker workerBufferSize encode evs []
    else
      recordWorker workerBufferSize encode evs buf1
  | .timer :: evs, buf =>
    if 0 < buf.length then buf ++ recordWorker workerBufferSize encode evs []
    else recordWorker workerBufferSize encode evs buf

/-- Embeds the body of `reloadQueueLoop` for one message received on
`reloadQueue`: the callback (possibly `nil`, modelled as `none`) is
appended to the `requeue` slice. -/
def reloadQueueStep (requeue : List (Option β)) (fn : Option β) :
    List (Option β) :=
  requeue ++ [fn]

/-- Embeds `shouldReload` of `redis_signals.go` / the load package: when
`requeue` is empty return `(nil, false)` leaving it unchanged; otherwise
return the current list with `true` and reset `requeue` to the empty
list. Result is `((returned callbacks, ok), new requeue)`. -/
def shouldReload (requeue : List (Option β)) :
    (List (Option β) × Bool) × List (Option β) :=
  if requeue.length = 0 then (([], false), requeue)
  else ((requeue, true), [])

/-- An observable action of one tick of `reloadLoop`: either the single
`DoReload` call or the invocation of one queued non-nil callback. -/
inductive TickAction (β : Type)
  | doReload
  | callback (c : β)
deriving DecidableEq

/-- Embeds one `ticker.C` arm of `reloadLoop`: call `shouldReload`; if it
reports an empty queue, do nothing (`continue`); otherwise perform
`DoReload()` once and then invoke, in order, every callback of the swapped
list that is not `nil`. The result is the ordered action trace of the tick
together with the `requeue` state it leaves behind. -/
def reloadLoopTick (requeue : List (Option β)) :
    List (TickAction β) × List (Option β) :=
  let s := shouldReload requeue
  if s.1.2 then
    (TickAction.doReload :: (s.1.1.filterMap id).map TickAction.callback, s.2)
  else
    ([], s.2)

/-- A 32-bit truncation, the `uint32` arithmetic of the hash. -/
def w32 (x : Nat) : Nat := x % 4294967296

/-- Right rotation of a 32-bit word. -/
def rotr32 (n x : Nat) : Nat := w32 ((x >>> n) ||| (x <<< (32 - n)))

/-- Big-endian byte decomposition of a value into `k` bytes. -/
def beBytes : Nat → Nat → List Nat
  | 0, _ => []
  | k + 1, v => beBytes k (v / 256) ++ [v % 256]

/-- Big-endian word from bytes. -/
def beWord (bs : List Nat) : Nat := bs.foldl (fun a b => a * 256 + b) 0

/-- SHA-256 round constants, in decimal. -/
def sha256K : List Nat :=
  [1116352408, 1899447441, 3049323471, 3921009573, 961987163,
   1508970993, 2453635748, 2870763221, 3624381080, 310598401,
   607225278, 1426881987, 1925078388, 2162078206, 2614888103,
   3248222580, 3835390401, 4022224774, 264347078, 604807628,
   770255983, 1249150122, 1555081692, 1996064986, 2554220882,
   2821834349, 2952996808, 3210313671, 3336571891, 3584528711,
   113926993, 338241895, 666307205, 773529912, 1294757372,
   1396182291, 1695183700, 1986661051, 2177026350, 2456956037,
   2730485921, 2820302411, 3259730800, 3345764771, 3516065817,
   3600352804, 4094571909, 275423344, 430227734, 506948616,
   659060556, 883997877, 958139571, 1322822218, 1537002063,
   1747873779, 1955562222, 2024104815, 2227730452, 2361852424,
   2428436474, 2756734187, 3204031479, 3329325298]

/-- The σ0 message-schedule function. -/
def smallSigma0 (x : Nat) : Nat := rotr32 7 x ^^^ rotr32 18 x ^^^ (x >>> 3)

/-- The σ1 message-schedule function. -/
def smallSigma1 (x : Nat) : Nat := rotr32 17 x ^^^ rotr32 19 x ^^^ (x >>> 10)

/-- The Σ0 compression function. -/
def bigSigma0 (x : Nat) : Nat := rotr32 2 x ^^^ rotr32 13 x ^^^ rotr32 22 x

/-- The Σ1 compression function. -/
def bigSigma1 (x : Nat) : Nat := rotr32 6 x ^^^ rotr32 11 x ^^^ rotr32 25 x

/-- The Ch function of the compression loop. -/
def chWord (x y z : Nat) : Nat := (x &&& y) ^^^ ((x ^^^ 0xffffffff) &&& z)

/-- The Maj function of the compression loop. -/
def majWord (x y z : Nat) : Nat := (x &&& y) ^^^ (x &&& z) ^^^ (y &&& z)

/-- The SHA-256 message schedule over the 16 words `m` of one block. -/
def schedW (m : List Nat) (i : Nat) : Nat :=
  if _hlt : i < 16 then m.getD i 0
  else
    w32 (schedW m (i - 16) + smallSigma0 (schedW m (i - 15)) +
      schedW m (i - 7) + smallSigma1 (schedW m (i - 2)))
termination_by i
decreasing_by all_goals omega

/-- The eight working words of the SHA-256 state. -/
structure Sha256State where
  a : Nat
  b : Nat
  c : Nat
  d : Nat
  e : Nat
  f : Nat
  g : Nat
  h : Nat
deriving DecidableEq

/-- The SHA-256 initial hash value, in decimal. -/
def sha256Init : Sha256State :=
  ⟨1779033703, 3144134277, 1013904242, 2773480762,
   1359893119, 2600822924, 528734635, 1541459225⟩

/-- One round of the SHA-256 compression loop. -/
def sha256Round (st : Sha256State) (k w : Nat) : Sha256State :=
  let t1 := w32 (st.h + bigSigma1 st.e + chWord st.e st.f st.g + k + w)
  let t2 := w32 (bigSigma0 st.a + majWord st.a st.b st.c)
  ⟨w32 (t1 + t2), st.a, st.b, st.c, w32 (st.d + t1), st.e, st.f, st.g⟩

/-- Process one 64-byte block: 64 compression rounds, then add the
resulting words into the running hash value. -/
def sha256Block (hs : Sha256State) (block : List Nat) : Sha256State :=
  let m := (block.toChunks 4).map beWord
  let st := (List.range 64).foldl
    (fun s i => sha256Round s (sha256K.getD i 0) (schedW m i)) hs
  ⟨w32 (hs.a + st.a), w32 (hs.b + st.b), w32 (hs.c + st.c), w32 (hs.d + st.d),
   w32 (hs.e + st.e), w32 (hs.f + st.f), w32 (hs.g + st.g), w32 (hs.h + st.h)⟩

/-- SHA-256 padding: append `0x80`, zero bytes up to 56 mod 64, then the
bit length as eight big-endian bytes. -/
def sha256Pad (msg : List Nat) : List Nat :=
  msg ++ [0x80] ++ List.replicate ((119 - msg.length % 64) % 64) 0 ++
    beBytes 8 (msg.length * 8)

/-- The SHA-256 digest of a byte sequence, as 32 bytes. -/
def sha256 (msg : List Nat) : List Nat :=
  let fin := ((sha256Pad msg).toChunks 64).foldl sha256Block sha256Init
  beBytes 4 fin.a ++ beBytes 4 fin.b ++ beBytes 4 fin.c ++ beBytes 4 fin.d ++
    beBytes 4 fin.e ++ beBytes 4 fin.f ++ beBytes 4 fin.g ++ beBytes 4 fin.h

/-- A lowercase hex digit. -/
def hexDigitChar (n : Nat) : Char :=
  if n < 10 then Char.ofNat (48 + n) else Char.ofNat (87 + n)

/-- The two lowercase hex characters of one byte (`hex.EncodeToString`
emits two characters per input byte). -/
def byteToHexChars (b : Nat) : List Char :=
  [hexDigitChar (b / 16), hexDigitChar (b % 16)]

/-- Embeds `hex.EncodeToString`: lowercase hex of a byte sequence. -/
def hexEncode (bs : List Nat) : String :=
  String.mk (bs.foldr (fun b acc => byteToHexChars b ++ acc) [])

/-- The fixed pub/sub channel name of `redis_signals.go`. -/
def RedisPubSubChannel : String := "iam.cluster.notifications"

/-- The `PolicyChanged` notification command. -/
def NoticePolicyChanged : String := "PolicyChanged"

/-- The `SecretChanged` notification command. -/
def NoticeSecretChanged : String := "SecretChanged"

/-- An invalidation notification (`Notification` of `redis_signals.go`):
command, payload, signature and signature algorithm (the Go `crypto.Hash`
enumeration value, `0` when unset). -/
structure Notification where
  command : String
  payload : String
  signature : String
  signatureAlgo : Nat
deriving DecidableEq

/-- The Go `crypto.SHA256` enumeration value. -/
def cryptoSHA256 : Nat := 5

/-- The UTF-8 bytes of a string. -/
def strBytes (s : String) : List Nat := s.toUTF8.toList.map (fun b => b.toNat)

/-- Embeds `Notification.Sign`: set the algorithm to `crypto.SHA256` and
the signature to the lowercase hex of the SHA-256 digest of
command concatenated with payload. -/
def Notification.Sign (n : Notification) : Notification :=
  { n with signatureAlgo := cryptoSHA256,
           signature := hexEncode (sha256 (strBytes (n.command ++ n.payload))) }

/-- What a delivery on the subscribed channel looks like to
`handleRedisEvent`: either not a `*redis.Message` at all, or a message
whose payload either fails `json.Unmarshal` (`none`) or parses to a
notification. -/
inductive RedisEventInput
  | notMessage
  | message (parsed : Option Notification)

/-- The observable outcome of `handleRedisEvent`: the callback sent to
`reloadQueue` if any (itself possibly `nil`), and the command passed to
the `handled` callback when that callback is not `nil`. -/
structure HandleResult (β : Type) where
  enqueued : Option (Option β)
  handledCommand : Option String
deriving DecidableEq

/-- Embeds `handleRedisEvent` of `redis_signals.go`: drop non-message
deliveries; drop payloads that fail to unmarshal (logged); on a parsed
notification switch on its command — `PolicyChanged` or `SecretChanged`
send the `reloaded` callback to `reloadQueue`, any other command is
logged and dropped; finally, when the `handled` callback is non-nil it is
invoked with the command. -/
def handleRedisEvent (v : RedisEventInput) (handledIsNil : Bool)
    (reloaded : Option β) : HandleResult β :=
  match v with
  | .notMessage => ⟨none, none⟩
  | .message none => ⟨none, none⟩
  | .message (some notif) =>
    if notif.command = NoticePolicyChanged ∨
        notif.command = NoticeSecretChanged then
      { enqueued := some reloaded,
        handledCommand := if handledIsNil then none else some notif.command }
    else ⟨none, none⟩

/-- Splitting a character sequence on a separator, the semantics of Go's
`strings.Split` with a one-character separator: the empty input gives one
empty field, and every separator occurrence starts a new field. -/
def splitOnChar (sep : Char) : List Char → List (List Char)
  | [] => [[]]
  | c :: cs =>
    let r := splitOnChar sep cs
    if c = sep then [] :: r
    else
      match r with
      | [] => [[c]]
      | g :: gs => (c :: g) :: gs

/-- Embeds the resource extraction of the `Publish` middleware:
`strings.Split(path, "/")`, taking element 2 when the split has more than
two elements and leaving the resource empty otherwise. -/
def publishResource (path : String) : String :=
  let pathSplit := splitOnChar '/' path.data
  if 2 < pathSplit.length then String.mk (pathSplit.getD 2 []) else ""

/-- Embeds `notify` of the `Publish` middleware: on methods `POST`, `PUT`,
`DELETE` and the literal `PATH` it marshals `Notification{Command:
command}` (all other fields left zero — no payload, no signature, no
algorithm) and publishes it; on any other method nothing is published.
The result is the notification published, when any. -/
def notifyPublished (method : String) (command : String) : Option Notification :=
  match method with
  | "POST" | "PUT" | "DELETE" | "PATH" =>
    some { command := command, payload := "", signature := "", signatureAlgo := 0 }
  | _ => none

/-- Embeds the `Publish` middleware: after the handler ran, publish nothing
unless the response status is 200; otherwise dispatch on path element 2 —
`policies` publishes a `PolicyChanged` notification, `secrets` a
`SecretChanged` one, anything else nothing. -/
def publishMiddleware (method path : String) (status : Nat) : Option Notification :=
  if status ≠ 200 then none
  else
    match publishResource path with
    | "policies" => notifyPublished method NoticePolicyChanged
    | "secrets" => notifyPublished method NoticeSecretChanged
    | _ => none

/-- The secret of the cache auth strategy (`Secret` of
`middleware/auth/cache.go`). -/
structure Secret where
  username : String
  id : String
  key : String
  expires : Int
deriving DecidableEq

/-- Embeds `KeyExpired` of `cache.go`: when `expires >= 1`, expired exactly
when wall-clock now is strictly after `time.Unix(expires, 0)`; otherwise
never expired. Instants carry nanosecond precision, so now is modelled in
nanoseconds and the expiry bound is `expires` seconds. -/
def KeyExpired (nowNs : Int) (expires : Int) : Bool :=
  if expires ≥ 1 then decide (nowNs > expires * 1000000000) else false

/-- The outcome of the expiry step of `CacheStrategy.AuthFunc` for a
request whose token already parsed and verified against the secret. -/
inductive AuthOutcome
  | expired
  | authed (username : String)
deriving DecidableEq

/-- Embeds the tail of `CacheStrategy.AuthFunc`: after signature and
audience verification succeed, reject with `ErrExpired` when
`KeyExpired(secret.Expires)` and otherwise install the secret's username
into the request context. -/
def authExpiryCheck (nowNs : Int) (secret : Secret) : AuthOutcome :=
  if KeyExpired nowNs secret.expires then .expired else .authed secret.username

theorem beBytes_length (k v : Nat) : (beBytes k v).length = k := by
  induction k generalizing v with
  | zero => rfl
  | succ k ih => simp [beBytes, ih]

theorem sha256_length (msg : List Nat) : (sha256 msg).length = 32 := by
  simp [sha256, beBytes_length]

theorem hexChars_length (bs : List Nat) :
    (bs.foldr (fun b acc => byteToHexChars b ++ acc) []).length = 2 * bs.length := by
  induction bs with
  | nil => rfl
  | cons b tl ih =>
    rw [List.foldr_cons, List.length_append, ih]
    simp only [byteToHexChars, List.length_cons, List.length_nil]
    omega

theorem hexEncode_length (bs : List Nat) : (hexEncode bs).length = 2 * bs.length :=
  hexChars_length bs

theorem sign_signature_length (n : Notification) :
    (Notification.Sign n).signature.length = 64 := by
  simp [Notification.Sign, hexEncode_length, sha256_length]

theorem recordWorker_append (wbs : Nat)
    (encode : AnalyticsRecord → Except String Encoded)
    (enc : AnalyticsRecord → Encoded) (hencode : ∀ r, encode r = .ok (enc r)) :
    ∀ (evs : List WorkerEvent) (buf : List Encoded),
      recordWorker wbs encode evs buf = buf ++ (workerRecords evs).map enc := by
  intro evs
  induction evs with
  | nil => intro buf; simp [recordWorker, workerRecords]
  | cons ev evs ih =>
    intro buf
    cases ev with
    | record r forced =>
      simp only [recordWorker, hencode r, workerRecords, List.map_cons]
      split
      · rw [ih []]
        simp
      · rw [ih (buf ++ [enc r])]
        simp
    | timer =>
      simp only [recordWorker, workerRecords]
      split
      · rw [ih []]
        simp
      · rw [ih buf]

theorem foldl_reloadQueueStep {β : Type} (l : List (Option β)) :
    ∀ acc, l.foldl reloadQueueStep acc = acc ++ l := by
  induction l with
  | nil => intro acc; simp
  | cons x xs ih => intro acc; simp [reloadQueueStep, ih]

/-- Recognizer for the reload action of a tick trace. -/
def isDoReload {β : Type} : TickAction β → Bool
  | .doReload => true
  | .callback _ => false

theorem countP_isDoReload_map_callback {β : Type} (l : List β) :
    (l.map TickAction.callback).countP (fun a => isDoReload a) = 0 := by
  induction l with
  | nil => rfl
  | cons x xs ih => simp [List.countP_cons, isDoReload, ih]

/-- C1 counterexample: with deciders `[P1 (allow), P2 (deny)]` the audit
conclusion built by `LogRejectedAccessRequest` is not
"policy P2 forcefully denied the access" — that text is only produced for
a singleton deciders list; with two deciders the `len(d) > 1` branch fires
instead. -/
theorem C1_counterexample :
    logRejectedConclusion [⟨"P1", true⟩, ⟨"P2", false⟩] ≠
      "policy P2 forcefully denied the access" := by decide

/-- C1 amended: the denial conclusion is a function of the deciders list,
with empty deciders giving "no policy allowed access", a single decider
`P2` giving "policy P2 forcefully denied the access", and an allow decider
`P1` followed by the deny decider `P2` giving
"policies P1 allow access, but policy P2 forcefully denied it". -/
theorem C1_amended_conclusion (p1 p2 : LadonPolicy) :
    logRejectedConclusion [] = "no policy allowed access" ∧
    logRejectedConclusion [p2] =
      "policy " ++ p2.id ++ " forcefully denied the access" ∧
    logRejectedConclusion [p1, p2] =
      "policies " ++ p1.id ++ " allow access, but policy " ++ p2.id ++
        " forcefully denied it" :=
  ⟨rfl, rfl, rfl⟩

/-- C2 counterexample: when the secrets pull succeeds with new entries and
the policies pull fails on all three retry attempts, `Reload` returns an
error but the secrets map has already been replaced, so the previous
snapshot is not preserved unchanged. -/
theorem C2_counterexample :
    (Cache.ReloadRetried ⟨[], [("alice", [⟨"P1", true⟩])]⟩
        (fun _ => .ok [("S1", ⟨"S1", "alice", "k", 0⟩)])
        (fun _ => .error "apiserver down")).2.isSome = true ∧
    (Cache.ReloadRetried ⟨[], [("alice", [⟨"P1", true⟩])]⟩
        (fun _ => .ok [("S1", ⟨"S1", "alice", "k", 0⟩)])
        (fun _ => .error "apiserver down")).1.secrets ≠ [] := by decide

/-- C2 amended: when `Reload` (with each pull retried up to three times)
returns an error, the policies map is always preserved unchanged; the
secrets map is preserved exactly when the secrets pull itself failed — if
the secrets pull succeeded and the policies pull failed, the secrets map
has already been replaced by the freshly pulled entries. -/
theorem C2_amended_reload_error (c : Cache)
    (sa : Nat → Except String (List (String × SecretInfo)))
    (pa : Nat → Except String (List (String × List LadonPolicy)))
    (e : String) (herr : (Cache.ReloadRetried c sa pa).2 = some e) :
    (Cache.ReloadRetried c sa pa).1.policies = c.policies ∧
    (∀ es, retryDo 3 sa 0 = .error es → (Cache.ReloadRetried c sa pa).1 = c) ∧
    (∀ s, retryDo 3 sa 0 = .ok s →
      (Cache.ReloadRetried c sa pa).1.secrets = s) := by
  unfold Cache.ReloadRetried Cache.Reload at *
  cases hs : retryDo 3 sa 0 with
  | error es => simp [hs]
  | ok s =>
    cases hp : retryDo 3 pa 0 with
    | error ep => simp [hs, hp]
    | ok p => rw [hs, hp] at herr; simp at herr

/-- C2 amended, witnessed at a concrete failing secrets pull: the cache is
returned unchanged. -/
theorem C2_amended_reload_error_witness :
    (Cache.ReloadRetried ⟨[("S0", ⟨"S0", "bob", "k0", 0⟩)], [("bob", [])]⟩
        (fun _ => .error "down") (fun _ => .ok [])).1.policies = [("bob", [])] :=
  (C2_amended_reload_error ⟨[("S0", ⟨"S0", "bob", "k0", 0⟩)], [("bob", [])]⟩
    (fun _ => .error "down") (fun _ => .ok [])
    "list secrets failed: down" (by decide)).1

/-- C7 counterexample: looking up a username absent from the snapshot cache
returns `ErrPolicyNotFound`, not an empty policy list with no error. -/
theorem C7_counterexample :
    Cache.GetPolicy ⟨[], []⟩ "bob" = .error "policy not found" ∧
    Cache.GetPolicy ⟨[], []⟩ "bob" ≠ .ok [] :=
  ⟨rfl, fun h => Except.noConfusion h⟩

/-- C7 amended: for every username not present in the snapshot cache,
`GetPolicy` returns the `ErrPolicyNotFound` error ("policy not found"),
and never an empty list with no error. -/
theorem C7_amended_unknown_user (c : Cache) (username : String)
    (h : c.policies.lookup username = none) :
    Cache.GetPolicy c username = .error "policy not found" := by
  simp [Cache.GetPolicy, h]

/-- C7 amended, witnessed on a cache holding only `alice`. -/
theorem C7_amended_unknown_user_witness :
    Cache.GetPolicy ⟨[], [("alice", [⟨"P1", true⟩])]⟩ "bob" =
      .error "policy not found" :=
  C7_amended_unknown_user ⟨[], [("alice", [⟨"P1", true⟩])]⟩ "bob" (by decide)

/-- C8: a secret with `expires_at = 0` is never rejected as expired
(`KeyExpired 0` is `false` for every now), and for `expires_at ≥ 1` the
authenticator rejects with `Expired` exactly when wall-clock now is
strictly after the expiry instant. -/
theorem C8_key_expiry (nowNs : Int) (s : Secret) :
    KeyExpired nowNs 0 = false ∧
    (s.expires = 0 → authExpiryCheck nowNs s = .authed s.username) ∧
    (1 ≤ s.expires →
      (authExpiryCheck nowNs s = .expired ↔
        nowNs > s.expires * 1000000000)) := by
  refine ⟨by simp [KeyExpired], ?_, ?_⟩
  · intro h0
    simp [authExpiryCheck, KeyExpired, h0]
  · intro h1
    by_cases hgt : nowNs > s.expires * 1000000000 <;>
      simp [authExpiryCheck, KeyExpired, h1, hgt]

/-- C8, witnessed: a secret expiring at Unix second 42 is rejected at
nanosecond instant 43 s, and a secret with `expires_at = 0` authenticates
far in the future. -/
theorem C8_key_expiry_witness :
    authExpiryCheck (43 * 1000000000) ⟨"alice", "S1", "k", 42⟩ =
      AuthOutcome.expired ∧
    authExpiryCheck 999999999999999 ⟨"alice", "S2", "k", 0⟩ =
      AuthOutcome.authed "alice" :=
  ⟨((C8_key_expiry (43 * 1000000000) ⟨"alice", "S1", "k", 42⟩).2.2
      (by norm_num)).mpr (by norm_num),
   (C8_key_expiry 999999999999999 ⟨"alice", "S2", "k", 0⟩).2.1 rfl⟩

/-- C9: `RecordHit` always returns `nil` — when `should_stop` is set the
record is silently dropped with the channel unchanged, and otherwise the
record is appended to the channel; neither path reports an error, so a
producer cannot distinguish an accepted record from a dropped one. -/
theorem C9_recordhit_always_nil (shouldStop : Bool)
    (chan : List AnalyticsRecord) (r : AnalyticsRecord) :
    (RecordHit shouldStop chan r).2 = none ∧
    (shouldStop = true → RecordHit shouldStop chan r = (chan, none)) ∧
    (shouldStop = false → RecordHit shouldStop chan r = (chan ++ [r], none)) := by
  cases shouldStop <;> simp [RecordHit]

/-- C9, witnessed: a drop and an accept both return `nil`. -/
theorem C9_recordhit_always_nil_witness :
    RecordHit true [] ⟨0, "u", "allow", "c", "r", "p", "d", 0⟩ = ([], none) :=
  (C9_recordhit_always_nil true [] ⟨0, "u", "allow", "c", "r", "p", "d", 0⟩).2.1 rfl

/-- C10: `PolicyChanged` and `SecretChanged` notifications are handled
identically — in the production wiring (nil `handled` callback) both
enqueue the same callback value on the reload queue — and a successful
`Reload` replaces both the secrets map and the policies map wholesale,
irrespective of the previous cache contents: there is no selective
invalidation of only the changed kind. -/
theorem C10_uniform_invalidation {β : Type} (payload sig1 sig2 : String)
    (algo1 algo2 : Nat) (reloaded : Option β) (c : Cache)
    (s : List (String × SecretInfo)) (p : List (String × List LadonPolicy)) :
    handleRedisEvent
        (.message (some ⟨NoticePolicyChanged, payload, sig1, algo1⟩)) true reloaded =
      handleRedisEvent
        (.message (some ⟨NoticeSecretChanged, payload, sig2, algo2⟩)) true reloaded ∧
    (handleRedisEvent
        (.message (some ⟨NoticePolicyChanged, payload, sig1, algo1⟩)) true
        reloaded).enqueued = some reloaded ∧
    Cache.Reload c (.ok s) (.ok p) = (⟨s, p⟩, none) := by
  refine ⟨?_, ?_, rfl⟩ <;>
    simp [handleRedisEvent, NoticePolicyChanged, NoticeSecretChanged]

/-- C3: graceful drain — for every sequence of worker wakeups (records
interleaved arbitrarily with timer fires and forced-flush instants,
closed by channel close when the events run out), the worker appends to
the shared analytics list key exactly the encodings of the records
delivered on the channel, in order; and once `should_stop` is set (which
`Stop` does before closing the channel), `RecordHit` accepts nothing: the
channel is left unchanged. -/
theorem C3_graceful_drain (workerBufferSize : Nat)
    (encode : AnalyticsRecord → Except String Encoded)
    (enc : AnalyticsRecord → Encoded)
    (hencode : ∀ r, encode r = .ok (enc r))
    (evs : List WorkerEvent) :
    recordWorker workerBufferSize encode evs [] = (workerRecords evs).map enc ∧
    (∀ recordsChan r, RecordHit true recordsChan r = (recordsChan, none)) := by
  constructor
  · rw [recordWorker_append workerBufferSize encode enc hencode evs []]
    simp
  · intro recordsChan r
    simp [RecordHit]

/-- C3, witnessed on a concrete three-wakeup trace: both submitted records
and nothing else reach the list key, in order. -/
theorem C3_graceful_drain_witness :
    recordWorker 5 (fun r => Except.ok [r.timeStamp.natAbs])
        [WorkerEvent.record ⟨1, "alice", "deny", "c", "r", "p", "d", 0⟩ false,
         WorkerEvent.timer,
         WorkerEvent.record ⟨2, "bob", "allow", "c", "r", "p", "d", 0⟩ true] [] =
      [[1], [2]] := by
  have h := (C3_graceful_drain 5 (fun r => Except.ok [r.timeStamp.natAbs])
      (fun r => [r.timeStamp.natAbs]) (fun _ => rfl)
      [WorkerEvent.record ⟨1, "alice", "deny", "c", "r", "p", "d", 0⟩ false,
       WorkerEvent.timer,
       WorkerEvent.record ⟨2, "bob", "allow", "c", "r", "p", "d", 0⟩ true]).1
  rw [h]
  rfl

/-- C4: coalescing — whatever burst of callbacks was enqueued on the reload
queue (and moved into `requeue`) within one ticker interval, a single tick
swaps `requeue` for the empty list and its action trace is empty when the
burst was empty and otherwise consists of exactly one `DoReload` followed
by the non-nil callbacks of the burst, in order; in particular the tick
performs at most one reload regardless of burst size. -/
theorem C4_coalesced_reload {β : Type} (burst : List (Option β)) :
    (reloadLoopTick (burst.foldl reloadQueueStep [])).2 = [] ∧
    (reloadLoopTick (burst.foldl reloadQueueStep [])).1 =
      (if burst.isEmpty then []
       else TickAction.doReload ::
         (burst.filterMap id).map TickAction.callback) ∧
    ((reloadLoopTick (burst.foldl reloadQueueStep [])).1.countP
        (fun a => isDoReload a)) ≤ 1 := by
  rw [foldl_reloadQueueStep burst []]
  simp only [List.nil_append]
  cases burst with
  | nil => simp [reloadLoopTick, shouldReload]
  | cons x xs =>
    refine ⟨?_, ?_, ?_⟩
    · simp [reloadLoopTick, shouldReload]
    · simp [reloadLoopTick, shouldReload]
    · simp only [reloadLoopTick, shouldReload, List.length_cons]
      simp [List.countP_cons, isDoReload, countP_isDoReload_map_callback]

/-- C5 counterexample: a notification that parses and carries the
`PolicyChanged` command but whose carried signature cannot be the
recomputed one (`Sign` always emits 64 hex characters, the carried
signature has 5) still enqueues a reload — the receiver never recomputes
the signature. -/
theorem C5_counterexample :
    (handleRedisEvent (β := Unit)
        (.message (some ⟨"PolicyChanged", "", "bogus", 0⟩)) true none).enqueued =
      some none ∧
    (Notification.Sign ⟨"PolicyChanged", "", "bogus", 0⟩).signature ≠ "bogus" := by
  constructor
  · rfl
  · intro heq
    have h := sign_signature_length ⟨"PolicyChanged", "", "bogus", 0⟩
    rw [heq] at h
    exact absurd h (by decide)

/-- C5 amended: the receiver validates only the parse and the command — a
reload is enqueued exactly for deliveries that are messages, parse to a
notification, and carry command `PolicyChanged` or `SecretChanged`;
malformed or unknown-command deliveries are dropped without enqueuing;
and the outcome is independent of the carried signature and algorithm
fields, which are never recomputed or compared. -/
theorem C5_amended_no_signature_check {β : Type} (v : RedisEventInput)
    (hnil : Bool) (reloaded : Option β) :
    ((handleRedisEvent v hnil reloaded).enqueued = some reloaded ↔
      ∃ n, (match v with
            | RedisEventInput.message (some n') => n' = n
            | _ => False) ∧
        (n.command = NoticePolicyChanged ∨ n.command = NoticeSecretChanged)) ∧
    ((handleRedisEvent v hnil reloaded).enqueued = none ∨
      (handleRedisEvent v hnil reloaded).enqueued = some reloaded) ∧
    (∀ cmd payload sig1 sig2 algo1 algo2,
      handleRedisEvent (β := β)
          (.message (some ⟨cmd, payload, sig1, algo1⟩)) hnil reloaded =
        handleRedisEvent
          (.message (some ⟨cmd, payload, sig2, algo2⟩)) hnil reloaded) := by
  refine ⟨?_, ?_, ?_⟩
  · cases v with
    | notMessage => simp [handleRedisEvent]
    | message parsed =>
      cases parsed with
      | none => simp [handleRedisEvent]
      | some n =>
        by_cases hc : n.command = NoticePolicyChanged ∨
            n.command = NoticeSecretChanged
        · simp only [handleRedisEvent, if_pos hc]
          constructor
          · intro _; exact ⟨n, rfl, hc⟩
          · intro _; trivial
        · simp only [handleRedisEvent, if_neg hc]
          constructor
          · intro h; exact absurd h (by simp)
          · rintro ⟨n', hn', hcmd⟩
            exact absurd (hn' ▸ hcmd) hc
  · cases v with
    | notMessage => simp [handleRedisEvent]
    | message parsed =>
      cases parsed with
      | none => simp [handleRedisEvent]
      | some n =>
        by_cases hc : n.command = NoticePolicyChanged ∨
            n.command = NoticeSecretChanged
        · simp [handleRedisEvent, if_pos hc]
        · simp [handleRedisEvent, if_neg hc]
  · intro cmd payload sig1 sig2 algo1 algo2
    simp only [handleRedisEvent]

theorem notifyPublished_eq (method command : String) :
    notifyPublished method command =
      (if method = "POST" ∨ method = "PUT" ∨ method = "DELETE" ∨
          method = "PATH"
       then some ⟨command, "", "", 0⟩ else none) := by
  unfold notifyPublished
  split
  next => simp
  next => simp
  next => simp
  next => simp
  next h1 h2 h3 h4 => simp_all

theorem publishMiddleware_eq (method path : String) (status : Nat) :
    publishMiddleware method path status =
      (if status = 200 then
         (if publishResource path = "policies" then
            notifyPublished method NoticePolicyChanged
          else if publishResource path = "secrets" then
            notifyPublished method NoticeSecretChanged
          else none)
       else none) := by
  unfold publishMiddleware
  by_cases hs : status = 200
  · rw [if_neg (by simp [hs]), if_pos hs]
    split
    next heq => simp [heq]
    next heq => simp [heq]
    next h1 h2 => simp_all
  · rw [if_pos hs, if_neg hs]

/-- C6 counterexample: a `PATCH` on a policies path returning 200 publishes
nothing (the middleware matches the literal "PATH", not "PATCH"), and what
a `POST` publishes is the unsigned notification — its signature field is
empty, whereas signing always yields 64 hex characters. -/
theorem C6_counterexample :
    publishMiddleware "PATCH" "/v1/policies/p1" 200 = none ∧
    publishMiddleware "POST" "/v1/policies/p1" 200 =
      some ⟨"PolicyChanged", "", "", 0⟩ ∧
    (Notification.Sign ⟨"PolicyChanged", "", "", 0⟩).signature ≠ "" := by
  refine ⟨by decide, by decide, ?_⟩
  intro heq
  have h := sign_signature_length ⟨"PolicyChanged", "", "", 0⟩
  rw [heq] at h
  exact absurd h (by decide)

/-- C6 amended: the middleware publishes a notification exactly when the
response status is 200, the method is `POST`, `PUT`, `DELETE` or the
literal `PATH` (so a real `PATCH` never publishes), and path segment 2 is
`policies` or `secrets`; the published notification carries only the
command — empty payload and, contrary to the claim, an empty signature,
never the hex SHA-256 of command and payload. -/
theorem C6_amended_publish (method path : String) (status : Nat)
    (n : Notification) :
    publishMiddleware method path status = some n ↔
      (status = 200 ∧
       (method = "POST" ∨ method = "PUT" ∨ method = "DELETE" ∨
         method = "PATH") ∧
       ((publishResource path = "policies" ∧
           n = ⟨NoticePolicyChanged, "", "", 0⟩) ∨
        (publishResource path = "secrets" ∧
           n = ⟨NoticeSecretChanged, "", "", 0⟩))) := by
  rw [publishMiddleware_eq, notifyPublished_eq, notifyPublished_eq]
  by_cases hs : status = 200 <;>
    by_cases hp : publishResource path = "policies" <;>
      by_cases hq : publishResource path = "secrets" <;>
        by_cases hm : method = "POST" ∨ method = "PUT" ∨ method = "DELETE" ∨
            method = "PATH" <;>
          simp [hs, hp, hq, hm, eq_comm]

end Iam
